import Mathlib

/-!
Verification of the AddisAbabaSUMO fairness-constrained traffic-signal
control engine.  The definitions below are a shallow embedding of the
Python sources:

* `fairness_observation.py` (`FairnessObservationFunction`),
* `fairness_reward.py` (`fairness_combined_reward`, fairness component),
* `Sumoconfigs/addis_traffic_env.py` (observation dimension adaptation),
* `frontend/public/Sumoconfigs/addis_targeted_env.py`
  (`TargetedTrafficLightManager`, `AddisTargetedEnvironment`,
  `FixedTimeController`).

Python ints are modelled as `Int`/`Nat`, float arithmetic as `ℚ`,
dictionaries as association lists or functions, and fallible external
(traci) lookups as `Option`-valued inputs.  The external simulator is
modelled as holding the phase last commanded through `setPhase`.
-/

namespace AddisSUMO

/-! ## Fairness observation tracker (fairness_observation.py) -/

/-- State of `FairnessObservationFunction`: `phase_usage` is the Python
dict (association list in insertion order), the other three fields are
the scalar counters. -/
structure FairnessObs where
  phase_usage : List (Nat × Nat)
  last_action : Option Nat
  same_phase_count : Nat
  step_count : Nat
deriving DecidableEq

/-- Python `d.get(k, 0)` on the phase-usage dict. -/
def dictGet : List (Nat × Nat) → Nat → Nat
  | [], _ => 0
  | (a, v) :: t, k => if a = k then v else dictGet t k

/-- The `__call__` update `if k not in d: d[k] = 0` followed by `d[k] += 1`:
increment the entry if present, otherwise insert it with count 1. -/
def dictBump : List (Nat × Nat) → Nat → List (Nat × Nat)
  | [], k => [(k, 1)]
  | (a, v) :: t, k => if a = k then (a, v + 1) :: t else (a, v) :: dictBump t k

/-- Python `sum(d.values())`. -/
def totalUsage (h : List (Nat × Nat)) : Nat := (h.map Prod.snd).sum

/-- Constructor `__init__`: the histogram maps each phase index below `num_phases` to 0, counters zero. -/
def fofInit (num_phases : Nat) : FairnessObs :=
  { phase_usage := (List.range num_phases).map (fun i => (i, 0))
    last_action := none
    same_phase_count := 0
    step_count := 0 }

/-- Method `reset()`: identical re-initialisation of all four fields. -/
def fofReset (num_phases : Nat) (_s : FairnessObs) : FairnessObs := fofInit num_phases

/-- The state-updating half of `FairnessObservationFunction.__call__`
(lines 61-79): bump the histogram at the active phase, update the
consecutive-same-phase counter, increment `step_count`. -/
def fofCallState (s : FairnessObs) (current_phase : Nat) : FairnessObs :=
  let usage := dictBump s.phase_usage current_phase
  match s.last_action with
  | none =>
      { s with phase_usage := usage, last_action := some current_phase
               step_count := s.step_count + 1 }
  | some la =>
      if current_phase = la then
        { s with phase_usage := usage, same_phase_count := s.same_phase_count + 1
                 step_count := s.step_count + 1 }
      else
        { s with phase_usage := usage, same_phase_count := 0
                 last_action := some current_phase, step_count := s.step_count + 1 }

/-- States of the tracker reachable by construction, observation calls
and episode resets. -/
inductive FofReachable : FairnessObs → Prop
  | init (n : Nat) : FofReachable (fofInit n)
  | call (s : FairnessObs) (cp : Nat) : FofReachable s → FofReachable (fofCallState s cp)
  | reset (s : FairnessObs) (n : Nat) : FofReachable s → FofReachable (fofReset n s)

/-- The sumo-rl `TrafficSignal` collaborator, as consumed by
`FairnessObservationFunction`: it exposes `num_green_phases`, the active
`green_phase`, the min-green timing fields, its lane list, and per-lane
density/queue readings (sumo-rl's `get_lanes_density`/`get_lanes_queue`
return one value per lane of `ts.lanes`). -/
structure TrafficSignal where
  num_green_phases : Nat
  green_phase : Nat
  time_since_last_phase_change : Nat
  min_green : Nat
  lanes : List Nat
  laneDensity : Nat → ℚ
  laneQueue : Nat → ℚ

/-- sumo-rl `get_lanes_density`: one reading per controlled lane. -/
def get_lanes_density (ts : TrafficSignal) : List ℚ := ts.lanes.map ts.laneDensity

/-- sumo-rl `get_lanes_queue`: one reading per controlled lane. -/
def get_lanes_queue (ts : TrafficSignal) : List ℚ := ts.lanes.map ts.laneQueue

/-- The observation vector built by `FairnessObservationFunction.__call__`
(lines 87-116), evaluated on the post-update tracker state: phase one-hot,
min-green flag, lane densities, lane queues, normalised phase usage,
stagnation indicator. -/
def fofObservation (ts : TrafficSignal) (s : FairnessObs) : List ℚ :=
  let s2 := fofCallState s ts.green_phase
  let num_phases := ts.num_green_phases
  let phase_id := (List.range num_phases).map (fun i => if ts.green_phase = i then (1 : ℚ) else 0)
  let min_green : List ℚ := [if ts.min_green ≤ ts.time_since_last_phase_change then 1 else 0]
  let density := get_lanes_density ts
  let queue := get_lanes_queue ts
  let total := totalUsage s2.phase_usage
  let usage_norm :=
    if 0 < total then
      (List.range num_phases).map (fun i => (dictGet s2.phase_usage i : ℚ) / (total : ℚ))
    else List.replicate num_phases 0
  let stagnation : List ℚ := [min 1 ((s2.same_phase_count : ℚ) / 100)]
  phase_id ++ min_green ++ density ++ queue ++ usage_norm ++ stagnation

/-- Size `FairnessObservationFunction.observation_space` declares
(lines 131-133): `num_phases + 1 + 2*len(lanes) + num_phases + 1`. -/
def observationSpaceSize (ts : TrafficSignal) : Nat :=
  ts.num_green_phases + 1 + 2 * ts.lanes.length + ts.num_green_phases + 1

/-! ## Fairness score (fairness_reward.py lines 44-58, and the identical
formula in multiagent_env.py lines 74-88) -/

/-- The fairness component of `fairness_combined_reward`: 1.0 before the
warm-up of 100 observed ticks or on an empty histogram, otherwise
`max(0, 1 - variance*10)` where `variance` is the mean squared deviation
of the normalised per-phase usage from the uniform share. -/
def fairnessScore (step_count : Nat) (phase_usage : List (Nat × Nat))
    (num_green_phases : Nat) : ℚ :=
  if 100 < step_count then
    let total := totalUsage phase_usage
    if 0 < total then
      let usage_values :=
        (List.range num_green_phases).map
          (fun i => (dictGet phase_usage i : ℚ) / (total : ℚ))
      let expected_usage : ℚ := 1 / (num_green_phases : ℚ)
      let variance :=
        ((usage_values.map (fun u => (u - expected_usage) ^ 2)).sum) / (num_green_phases : ℚ)
      max 0 (1 - variance * 10)
    else 1
  else 1

/-! ## Observation dimension adaptation
(Sumoconfigs/addis_traffic_env.py lines 633-641) -/

/-- The tail of `AddisTrafficEnvironment._get_observation`: pad the
produced vector with zeros when shorter than the expected dimension,
truncate when longer, leave unchanged when equal. -/
def adaptObservation (obs : List ℚ) (expected_dim : Nat) : List ℚ :=
  if obs.length < expected_dim then
    obs ++ List.replicate (expected_dim - obs.length) 0
  else if expected_dim < obs.length then
    obs.take expected_dim
  else obs

/-! ## Per-lane telemetry and metrics
(addis_targeted_env.py `TargetedTrafficLightManager.get_lane_metrics`,
lines 165-192) -/

/-- One lane's five traci lookups for a tick; `none` models a raised
lookup exception (unknown id or transient query failure). -/
structure RawLaneData where
  vehicleNumber : Option ℚ
  haltingNumber : Option ℚ
  waitingTime : Option ℚ
  meanSpeed : Option ℚ
  laneLength : Option ℚ
deriving DecidableEq

/-- The seven derived metrics stored per lane. -/
structure LaneMetrics where
  vehicle_count : ℚ
  queue_length : ℚ
  waiting_time : ℚ
  mean_speed : ℚ
  occupancy : ℚ
  density : ℚ
  flow_rate : ℚ
deriving DecidableEq

/-- The `except` branch of `get_lane_metrics`: all seven fields zero. -/
def zeroMetrics : LaneMetrics := ⟨0, 0, 0, 0, 0, 0, 0⟩

/-- The `try` body of `get_lane_metrics` for one lane; any failing lookup
sends the whole lane to `zeroMetrics`.  Caps mirror the source: 30
vehicles, 20 halting, 180 s waiting, `max(length, 1)`, occupancy at 1,
density at 50, flow at 300 (0 when the mean speed is not positive). -/
def laneMetricsOf (raw : RawLaneData) : LaneMetrics :=
  match raw.vehicleNumber, raw.haltingNumber, raw.waitingTime, raw.meanSpeed, raw.laneLength with
  | some veh, some halt, some wait, some speed, some len =>
      let vehicle_count := min veh 30
      let queue_length := min halt 20
      let waiting_time := min wait 180
      let mean_speed := speed
      let lane_length := max len 1
      { vehicle_count := vehicle_count
        queue_length := queue_length
        waiting_time := waiting_time
        mean_speed := mean_speed
        occupancy := min (vehicle_count * 5 / lane_length) 1
        density := min (vehicle_count / (lane_length / 1000)) 50
        flow_rate := if 0 < mean_speed then min (vehicle_count * mean_speed) 300 else 0 }
  | _, _, _, _, _ => zeroMetrics

/-! ## TargetedTrafficLightManager and AddisTargetedEnvironment
(addis_targeted_env.py) -/

/-- State of `TargetedTrafficLightManager`.  `phases` holds each phase's
signal string, `controlledLinks` the incoming lane(s) of every link
index, `controlled_lanes` the manager's lane list.  `lane_last_green` is
the `defaultdict(lambda: -max_red_time)` as a total function. -/
structure TLS where
  phases : List (List Char)
  controlledLinks : List (List Nat)
  controlled_lanes : List Nat
  min_green_time : Int
  max_red_time : Int
  emergency_cooldown : Int
  current_phase : Nat
  phase_start_time : Int
  time_since_last_switch : Int
  lane_last_green : Nat → Int
  last_emergency_switch : Int
  emergency_switches : Nat
  phase_switches : Nat

/-- A signal character gives green when it is `G` or `g`. -/
def isGreenChar (c : Char) : Bool := c = 'G' || c = 'g'

/-- Method `_identify_green_phases`: indices of phases whose state contains a
green character, falling back to `range(min(len(phases), 6))` when none
does. -/
def green_phases (tls : TLS) : List Nat :=
  let gp := (List.range tls.phases.length).filter
    (fun i => (tls.phases.getD i []).any isGreenChar)
  if gp.isEmpty then List.range (min tls.phases.length 6) else gp

/-- Method `_get_current_green_lanes`: lanes fed by a link whose current signal
character is green, first-seen order without duplicates.  The simulator's
current state string is the commanded phase's state. -/
def currentGreenLanes (tls : TLS) : List Nat :=
  let st := tls.phases.getD tls.current_phase []
  (st.zip tls.controlledLinks).foldl
    (fun acc cl =>
      if isGreenChar cl.1 then
        cl.2.foldl (fun a l => if l ∈ a then a else a ++ [l]) acc
      else acc) []

/-- Whether phase `pIdx` shows green on some link feeding `lane`. -/
def phaseServesLane (tls : TLS) (pIdx : Nat) (lane : Nat) : Bool :=
  ((tls.phases.getD pIdx []).zip tls.controlledLinks).any
    (fun cl => isGreenChar cl.1 && cl.2.contains lane)

/-- Method `_find_best_phase_for_lane`: first green phase (ascending index)
serving the lane. -/
def find_best_phase_for_lane (tls : TLS) (lane : Nat) : Option Nat :=
  (green_phases tls).find? (fun p => phaseServesLane tls p lane)

/-- Method `can_switch_phase` (lines 103-106): the time spent in the current
phase has reached `min_green_time`. -/
def can_switch_phase (tls : TLS) (current_time : Int) : Bool :=
  tls.min_green_time ≤ current_time - tls.phase_start_time

/-- The lane-scanning loop of `needs_emergency_switch` (lines 117-122):
keep the not-currently-green lane whose starvation time both exceeds
`max_red_time * 0.8` and strictly exceeds the running maximum
(initially 0). -/
def scanStarved (tls : TLS) (t : Int) (green : List Nat) :
    List Nat → Int × Option Nat → Int × Option Nat
  | [], acc => acc
  | lane :: rest, acc =>
      if lane ∈ green then scanStarved tls t green rest acc
      else
        let starvation := t - tls.lane_last_green lane
        if (tls.max_red_time : ℚ) * (8 / 10) < (starvation : ℚ) ∧ acc.1 < starvation then
          scanStarved tls t green rest (starvation, some lane)
        else scanStarved tls t green rest acc

/-- Method `needs_emergency_switch` (lines 108-131).  Returns the
`(bool, phase)` pair and the possibly-mutated manager state: a `true`
answer has already recorded `last_emergency_switch = now` and bumped
`emergency_switches`. -/
def needs_emergency_switch (tls : TLS) (current_time : Int) :
    (Bool × Option Nat) × TLS :=
  if current_time - tls.last_emergency_switch < tls.emergency_cooldown then
    ((false, none), tls)
  else
    match (scanStarved tls current_time (currentGreenLanes tls)
            tls.controlled_lanes (0, none)).2 with
    | some lane =>
        match find_best_phase_for_lane tls lane with
        | some best =>
            if best ≠ tls.current_phase then
              ((true, some best),
               { tls with last_emergency_switch := current_time
                          emergency_switches := tls.emergency_switches + 1 })
            else ((false, none), tls)
        | none => ((false, none), tls)
    | none => ((false, none), tls)

/-- Method `_evaluate_phase_score` (lines 458-488): over every green link of the
candidate phase, add the demand score `queue*2 + wait*0.01 + count*0.5`
and the fairness bonus `min((now - lane_last_green)/60, 5)` of its lanes. -/
def evaluate_phase_score (tls : TLS) (metrics : Nat → LaneMetrics)
    (sim_step : Int) (phase_idx : Nat) : ℚ :=
  ((tls.phases.getD phase_idx []).zip tls.controlledLinks).foldl
    (fun score cl =>
      if isGreenChar cl.1 then
        cl.2.foldl
          (fun sc lane =>
            if lane ∈ tls.controlled_lanes then
              let m := metrics lane
              let demand := m.queue_length * 2 + m.waiting_time * (1 / 100)
                + m.vehicle_count * (1 / 2)
              let fairness_bonus :=
                min (((sim_step - tls.lane_last_green lane : Int) : ℚ) / 60) 5
              sc + demand + fairness_bonus
            else sc) score
      else score) 0

/-- Method `_get_next_optimal_phase` (lines 440-456): the green phase distinct
from the current one with the strictly largest score; the running best
starts at `(current+1) % len(green_phases)` with score `-inf` (modelled
as `none`). -/
def get_next_optimal_phase (tls : TLS) (metrics : Nat → LaneMetrics)
    (sim_step : Int) : Nat :=
  let gp := green_phases tls
  let init_best := if gp.isEmpty then tls.current_phase
                   else (tls.current_phase + 1) % gp.length
  (gp.foldl
    (fun (acc : Nat × Option ℚ) phase_idx =>
      if phase_idx = tls.current_phase then acc
      else
        let score := evaluate_phase_score tls metrics sim_step phase_idx
        match acc.2 with
        | none => (phase_idx, some score)
        | some best => if best < score then (phase_idx, some score) else acc)
    (init_best, none)).1

/-- Method `_switch_to_phase` (lines 426-438): wrap an out-of-range target,
command the phase, restart the phase clock, zero the switch timer. -/
def switch_to_phase (tls : TLS) (sim_step : Int) (target : Nat) : TLS :=
  let target := if tls.phases.length ≤ target then target % tls.phases.length else target
  { tls with current_phase := target
             phase_start_time := sim_step
             time_since_last_switch := 0
             phase_switches := tls.phase_switches + 1 }

/-- The kind of phase command issued for one intersection on one tick. -/
inductive Decision where
  | keep
  | emergency (p : Nat)
  | rlSwitch (p : Nat)
deriving DecidableEq

/-- Method `_execute_action` (lines 403-424), phase-command part: the emergency
check runs first (with its side effects); an emergency switch and an
RL-requested switch are both gated by `can_switch_phase`. -/
def execute_action (tls : TLS) (sim_step : Int) (telem : Nat → RawLaneData)
    (action : Nat) : TLS × Decision :=
  match (needs_emergency_switch tls sim_step).1 with
  | (true, some p) =>
      if can_switch_phase (needs_emergency_switch tls sim_step).2 sim_step then
        (switch_to_phase (needs_emergency_switch tls sim_step).2 sim_step p,
         Decision.emergency p)
      else ((needs_emergency_switch tls sim_step).2, Decision.keep)
  | _ =>
      if action = 1 ∧ can_switch_phase (needs_emergency_switch tls sim_step).2 sim_step then
        if get_next_optimal_phase (needs_emergency_switch tls sim_step).2
             (fun lane => laneMetricsOf (telem lane)) sim_step
           ≠ ((needs_emergency_switch tls sim_step).2).current_phase then
          (switch_to_phase (needs_emergency_switch tls sim_step).2 sim_step
             (get_next_optimal_phase (needs_emergency_switch tls sim_step).2
               (fun lane => laneMetricsOf (telem lane)) sim_step),
           Decision.rlSwitch
             (get_next_optimal_phase (needs_emergency_switch tls sim_step).2
               (fun lane => laneMetricsOf (telem lane)) sim_step))
        else ((needs_emergency_switch tls sim_step).2, Decision.keep)
      else ((needs_emergency_switch tls sim_step).2, Decision.keep)

/-- Method `update_fairness_metrics` (lines 194-199): stamp `lane_last_green`
for every controlled lane currently shown green. -/
def update_fairness_metrics (tls : TLS) (current_time : Int) : TLS :=
  let green := currentGreenLanes tls
  { tls with lane_last_green := fun lane =>
      if lane ∈ tls.controlled_lanes ∧ lane ∈ green then current_time
      else tls.lane_last_green lane }

/-- Method `_update_all_metrics` (lines 517-527) for one manager: fairness stamp
at the post-advance time, then `time_since_last_switch += delta_time`.
(The traci phase re-sync is the identity here because the simulator holds
the commanded phase.) -/
def update_all_metrics (tls : TLS) (sim_step : Int) (delta_time : Int) : TLS :=
  let tls := update_fairness_metrics tls sim_step
  { tls with time_since_last_switch := tls.time_since_last_switch + delta_time }

/-- Method `_handle_emergency_switches` (lines 529-535) for one manager: apply a
required emergency switch with no min-green gate; report whether one
fired. -/
def handle_emergency_switches (tls : TLS) (sim_step : Int) : TLS × Bool :=
  match (needs_emergency_switch tls sim_step).1 with
  | (true, some p) => (switch_to_phase (needs_emergency_switch tls sim_step).2 sim_step p, true)
  | _ => ((needs_emergency_switch tls sim_step).2, false)

/-- State of `AddisTargetedEnvironment` for a single managed intersection. -/
structure Env where
  tls : TLS
  simulation_step : Int
  delta_time : Int
  emergency_switches_total : Nat

/-- Method `AddisTargetedEnvironment.step` (lines 347-401) in `rl` control mode
for one intersection: execute the action at the pre-advance time, advance
the simulator by `delta_time`, update metrics, then handle emergency
switches at the post-advance time. -/
def envStep (env : Env) (telem : Nat → RawLaneData) (action : Nat) : Env :=
  let tls1 := (execute_action env.tls env.simulation_step telem action).1
  let t2 := env.simulation_step + env.delta_time
  let tls2 := update_all_metrics tls1 t2 env.delta_time
  let h := handle_emergency_switches tls2 t2
  { env with tls := h.1
             simulation_step := t2
             emergency_switches_total :=
               env.emergency_switches_total + (if h.2 then 1 else 0) }

/-- Per-tick decision of `FixedTimeController.run_episode` (line 655):
request a switch exactly when `time_since_last_switch` has reached the
cycle time, reading nothing else. -/
def fixed_decision (cycle_time : Int) (tls : TLS) : Nat :=
  if cycle_time ≤ tls.time_since_last_switch then 1 else 0

/-- The decisions a `FixedTimeController` emits over `n` ticks of the
closed loop, each computed before the environment step it drives. -/
def fixedRun (cycle_time : Int) (telem : Nat → RawLaneData) :
    Nat → Env → List Nat
  | 0, _ => []
  | n + 1, env =>
      let a := fixed_decision cycle_time env.tls
      a :: fixedRun cycle_time telem n (envStep env telem a)

/-- Iterated `needs_emergency_switch` calls at the given times, threading
the manager state, collecting the returned pairs. -/
def callChain : List Int → TLS → List (Bool × Option Nat) × TLS
  | [], tls => ([], tls)
  | u :: rest, tls =>
      ((needs_emergency_switch tls u).1
         :: (callChain rest (needs_emergency_switch tls u).2).1,
       (callChain rest (needs_emergency_switch tls u).2).2)

/-! ## AddisTargetedEnvironment._get_observation (lines 537-590) -/

/-- One intersection's 86-feature block: the 2 header features
(`current_phase / max(len(phases), 1)` and
`min(time_since_last_switch/100, 1)`) followed by 12 lane slots of 7
normalised metrics each, zero-filled past the populated lanes. -/
def tlsBlock (tls : TLS) (telem : Nat → RawLaneData) : List ℚ :=
  let header : List ℚ :=
    [(tls.current_phase : ℚ) / ((max tls.phases.length 1 : Nat) : ℚ),
     min ((tls.time_since_last_switch : ℚ) / 100) 1]
  let lanes := tls.controlled_lanes.take 12
  let laneSlots := (List.range 12).map (fun i =>
    match lanes.get? i with
    | some lane =>
        let m := laneMetricsOf (telem lane)
        [m.vehicle_count / 30, m.queue_length / 20, m.waiting_time / 180,
         m.mean_speed / 50, m.occupancy, m.density / 50, m.flow_rate / 300]
    | none => List.replicate 7 0)
  header ++ laneSlots.flatten

/-- The 5 global features (lines 574-588): `none` for the expected-vehicle
count models a failed traci query and sends the whole block to zero. -/
def globalsBlock (minExpected : Option ℚ) (sim_step num_seconds : ℚ)
    (emergency_total : ℚ) (active target : Nat) : List ℚ :=
  match minExpected with
  | some e =>
      [min (e / 1000) 1, min (sim_step / num_seconds) 1,
       min (emergency_total / 50) 1, (active : ℚ) / (target : ℚ), 0]
  | none => [0, 0, 0, 0, 0]

/-- Method `_get_observation`: an 86-feature block per targeted id (zeros when
the id failed to initialise) followed by the 5 global features. -/
def envObservation (target_ids : List Nat) (tlsOf : Nat → Option TLS)
    (telem : Nat → RawLaneData) (globals : List ℚ) : List ℚ :=
  (target_ids.map (fun tid =>
    match tlsOf tid with
    | some tls => tlsBlock tls telem
    | none => List.replicate 86 0)).flatten ++ globals

/-! ## Concrete configurations used by witnesses and counterexamples -/

/-- All-zero telemetry for one lane. -/
def rawZero : RawLaneData := ⟨some 0, some 0, some 0, some 0, some 0⟩

/-- A five-lane intersection whose four phases serve lane sets
`{4}`, `{0,1}`, `{0,2}`, `{3,4}`, in the reset-time manager state
(`lane_last_green` and `last_emergency_switch` at `-90`). -/
def cexTLS : TLS :=
  { phases := [['r', 'r', 'r', 'r', 'G'],
               ['G', 'G', 'r', 'r', 'r'],
               ['G', 'r', 'G', 'r', 'r'],
               ['r', 'r', 'r', 'G', 'G']]
    controlledLinks := [[0], [1], [2], [3], [4]]
    controlled_lanes := [0, 1, 2, 3, 4]
    min_green_time := 10
    max_red_time := 90
    emergency_cooldown := 20
    current_phase := 0
    phase_start_time := 0
    time_since_last_switch := 0
    lane_last_green := fun _ => -90
    last_emergency_switch := -90
    emergency_switches := 0
    phase_switches := 0 }

/-- The environment around `cexTLS` right after `reset`, with the default
15-second decision interval. -/
def cexEnv : Env :=
  { tls := cexTLS, simulation_step := 0, delta_time := 15
    emergency_switches_total := 0 }

/-- Telemetry stream A: a 20-vehicle standing queue on lane 0. -/
def telemA : Nat → RawLaneData :=
  fun lane => if lane = 0 then ⟨some 0, some 20, some 0, some 0, some 0⟩ else rawZero

/-- Telemetry stream B: a 20-vehicle standing queue on lane 2. -/
def telemB : Nat → RawLaneData :=
  fun lane => if lane = 2 then ⟨some 0, some 20, some 0, some 0, some 0⟩ else rawZero

/-- Variant of `cexTLS` with only lane 0 still at its initial `-90` stamp, the other
lanes last served at time `-50`. -/
def c2wTLS : TLS :=
  { cexTLS with lane_last_green := fun l => if l = 0 then -90 else -50 }

/-- A three-lane intersection where phase 0 (current) serves lane 2 only,
phase 1 serves lane 0 only, and no phase serves lane 1; lane 0 was last
green at time 10, lane 1 never. -/
def c2cTLS : TLS :=
  { phases := [['r', 'r', 'G'], ['G', 'r', 'r']]
    controlledLinks := [[0], [1], [2]]
    controlled_lanes := [0, 1, 2]
    min_green_time := 10
    max_red_time := 90
    emergency_cooldown := 20
    current_phase := 0
    phase_start_time := 0
    time_since_last_switch := 0
    lane_last_green := fun l => if l = 0 then 10 else -90
    last_emergency_switch := -90
    emergency_switches := 0
    phase_switches := 0 }

/-- A two-phase, two-lane intersection 30 s into phase 0 with no starved
lane (both lanes last green at time 25). -/
def c1wTLS : TLS :=
  { phases := [['G', 'r'], ['r', 'G']]
    controlledLinks := [[0], [1]]
    controlled_lanes := [0, 1]
    min_green_time := 10
    max_red_time := 90
    emergency_cooldown := 20
    current_phase := 0
    phase_start_time := 0
    time_since_last_switch := 30
    lane_last_green := fun _ => 25
    last_emergency_switch := -90
    emergency_switches := 0
    phase_switches := 0 }

/-- Variant of `cexTLS` holding phase 1 instead of phase 0 (same switch timer). -/
def c7wTLS : TLS := { cexTLS with current_phase := 1 }

/-- A one-phase, one-lane intersection used to evaluate the encoder. -/
def c3TLS : TLS :=
  { phases := [['G']]
    controlledLinks := [[0]]
    controlled_lanes := [0]
    min_green_time := 10
    max_red_time := 90
    emergency_cooldown := 20
    current_phase := 0
    phase_start_time := 0
    time_since_last_switch := 0
    lane_last_green := fun _ => -90
    last_emergency_switch := -90
    emergency_switches := 0
    phase_switches := 0 }

/-- Telemetry whose lane-0 mean-speed lookup reads 100 m/s; every other
field is benign. -/
def c3telem : Nat → RawLaneData :=
  fun _ => ⟨some 0, some 0, some 0, some 100, some 10⟩

/-- Seven targeted ids of which only the first initialised. -/
def c3tlsOf : Nat → Option TLS := fun tid => if tid = 0 then some c3TLS else none

/-- The encoder's output on that environment. -/
def c3obs : List ℚ :=
  envObservation [0, 1, 2, 3, 4, 5, 6] c3tlsOf c3telem
    (globalsBlock (some 0) 0 1800 0 1 7)

/-! ## Theorems -/

unseal Rat.add Rat.mul Rat.sub Rat.inv Rat.ofScientific

set_option maxRecDepth 100000

theorem totalUsage_cons (a v : Nat) (t : List (Nat × Nat)) :
    totalUsage ((a, v) :: t) = v + totalUsage t := by
  simp [totalUsage]

theorem totalUsage_dictBump (h : List (Nat × Nat)) (k : Nat) :
    totalUsage (dictBump h k) = totalUsage h + 1 := by
  induction h with
  | nil => simp [dictBump, totalUsage]
  | cons p t ih =>
      obtain ⟨a, v⟩ := p
      by_cases hak : a = k
      · simp [dictBump, hak, totalUsage_cons]
        omega
      · simp [dictBump, hak, totalUsage_cons, ih]
        omega

theorem totalUsage_fofInit (n : Nat) : totalUsage (fofInit n).phase_usage = 0 := by
  simp only [fofInit, totalUsage, List.map_map]
  apply List.sum_eq_zero
  intro x hx
  rcases List.mem_map.mp hx with ⟨i, _, hi⟩
  exact hi ▸ rfl

/-- C6: in every reachable tracker state the phase-usage histogram total
equals the number of ticks observed since the last reset, and a reset
restores both the total and the tick counter to zero. -/
theorem histogram_total_eq_step_count :
    (∀ s, FofReachable s → totalUsage s.phase_usage = s.step_count) ∧
    (∀ (s : FairnessObs) (n : Nat),
      (fofReset n s).step_count = 0 ∧ totalUsage (fofReset n s).phase_usage = 0) := by
  constructor
  · intro s h
    induction h with
    | init n => simpa using totalUsage_fofInit n
    | call s cp _ ih =>
        cases hla : s.last_action with
        | none => simp [fofCallState, hla, totalUsage_dictBump, ih]
        | some la =>
            by_cases hc : cp = la <;>
              simp [fofCallState, hla, hc, totalUsage_dictBump, ih]
    | reset s n _ _ => simpa using totalUsage_fofInit n
  · intro s n
    exact ⟨rfl, totalUsage_fofInit n⟩

theorem histogram_total_eq_step_count_witness :
    totalUsage (fofCallState (fofInit 4) 2).phase_usage
      = (fofCallState (fofInit 4) 2).step_count ∧
    (fofCallState (fofInit 4) 2).step_count = 1 :=
  ⟨histogram_total_eq_step_count.1 _ (FofReachable.call _ 2 (FofReachable.init 4)),
   by decide⟩

/-- C10: the vector returned by the fairness observation function always
has exactly the length declared by `observation_space`, namely
`numGreenPhases + 1 + len(lanes) + len(lanes) + numGreenPhases + 1`. -/
theorem fairness_observation_length (ts : TrafficSignal) (s : FairnessObs) :
    (fofObservation ts s).length = observationSpaceSize ts := by
  unfold fofObservation observationSpaceSize get_lanes_density get_lanes_queue
  by_cases h : 0 < totalUsage (fofCallState s ts.green_phase).phase_usage <;>
    simp [h] <;> omega

theorem dictGet_singleton (p m i : Nat) :
    dictGet [(p, m)] i = if p = i then m else 0 := by
  simp [dictGet]

/-- C5: dimension adaptation pads a short vector with zeros to exactly
the expected dimension leaving its elements unchanged, truncates a long
vector to its first `D` elements, and leaves an exact-length vector
unchanged. -/
theorem dimension_adaptation (obs : List ℚ) (D : Nat) :
    (obs.length < D →
      (adaptObservation obs D).length = D ∧
      (adaptObservation obs D).take obs.length = obs ∧
      (adaptObservation obs D).drop obs.length = List.replicate (D - obs.length) 0) ∧
    (D < obs.length → adaptObservation obs D = obs.take D) ∧
    (obs.length = D → adaptObservation obs D = obs) := by
  refine ⟨fun h => ?_, fun h => ?_, fun h => ?_⟩ <;> unfold adaptObservation
  · rw [if_pos h]
    refine ⟨?_, List.take_left obs _, List.drop_left obs _⟩
    simp [List.length_append, List.length_replicate]
    omega
  · rw [if_neg (by omega), if_pos h]
  · rw [if_neg (by omega), if_neg (by omega)]

theorem dimension_adaptation_witness :
    ((adaptObservation [(1 : ℚ), 2] 4).length = 4 ∧
     (adaptObservation [(1 : ℚ), 2] 4).take 2 = [1, 2] ∧
     (adaptObservation [(1 : ℚ), 2] 4).drop 2 = [0, 0]) ∧
    adaptObservation [(1 : ℚ), 2, 3] 2 = [1, 2] ∧
    adaptObservation [(1 : ℚ), 2] 2 = [1, 2] := by
  refine ⟨?_, (dimension_adaptation [(1 : ℚ), 2, 3] 2).2.1 (by decide),
          (dimension_adaptation [(1 : ℚ), 2] 2).2.2 (by decide)⟩
  have h := (dimension_adaptation [(1 : ℚ), 2] 4).1 (by decide)
  exact ⟨h.1, by simpa using h.2.1, by simpa using h.2.2⟩

/-- C8: when any of a lane's telemetry lookups fails, all seven metric
fields of that lane degrade to zero, and metric collection still yields
one entry per controlled lane, so the failure never escapes the
metric-collection step. -/
theorem telemetry_failure_neutral :
    (∀ raw : RawLaneData,
      raw.vehicleNumber = none ∨ raw.haltingNumber = none ∨
      raw.waitingTime = none ∨ raw.meanSpeed = none ∨ raw.laneLength = none →
      laneMetricsOf raw = zeroMetrics) ∧
    (∀ (lanes : List Nat) (telem : Nat → RawLaneData),
      (lanes.map (fun l => laneMetricsOf (telem l))).length = lanes.length) := by
  constructor
  · rintro ⟨v, ha, w, sp, len⟩ H
    cases v <;> cases ha <;> cases w <;> cases sp <;> cases len <;>
      first
        | rfl
        | simp at H
  · intro lanes telem
    simp

theorem telemetry_failure_neutral_witness :
    laneMetricsOf ⟨none, some 1, some 2, some 3, some 4⟩ = zeroMetrics ∧
    ([0, 1].map (fun l =>
      laneMetricsOf ((fun _ => (⟨none, none, none, none, none⟩ : RawLaneData)) l))).length = 2 :=
  ⟨telemetry_failure_neutral.1 ⟨none, some 1, some 2, some 3, some 4⟩ (Or.inl rfl),
   telemetry_failure_neutral.2 [0, 1] _⟩

theorem dictGet_map_pair_const (c : Nat) {i : Nat} :
    ∀ (l : List Nat), i ∈ l → dictGet (l.map (fun j => (j, c))) i = c := by
  intro l
  induction l with
  | nil => intro h; cases h
  | cons a t ih =>
      intro hmem
      by_cases hai : a = i
      · simp [dictGet, hai]
      · have : i ∈ t := by
          rcases List.mem_cons.mp hmem with h | h
          · exact absurd h.symm hai
          · exact h
        simp [dictGet, hai, ih this]

theorem totalUsage_map_pair_const (n c : Nat) :
    totalUsage ((List.range n).map (fun j => (j, c))) = n * c := by
  simp only [totalUsage, List.map_map]
  have h : (List.range n).map (Prod.snd ∘ fun j => (j, c)) = List.replicate n c := by
    rw [List.eq_replicate_iff]
    refine ⟨by simp, ?_⟩
    intro x hx
    rcases List.mem_map.mp hx with ⟨i, _, hi⟩
    exact hi ▸ rfl
  rw [h, List.sum_replicate, smul_eq_mul]

theorem sum_map_range_ite (a b : ℚ) :
    ∀ (n p : Nat), p < n →
      ((List.range n).map (fun i => if p = i then a else b)).sum
        = a + ((n - 1 : Nat) : ℚ) * b := by
  intro n
  induction n with
  | zero => intro p hp; omega
  | succ k ih =>
      intro p hp
      rw [List.range_succ, List.map_append, List.sum_append]
      by_cases hpk : p = k
      · have hhead : (List.range k).map (fun i => if p = i then a else b)
            = List.replicate k b := by
          rw [List.eq_replicate_iff]
          refine ⟨by simp, ?_⟩
          intro x hx
          rcases List.mem_map.mp hx with ⟨i, hi, hix⟩
          have hne : p ≠ i := by
            have := List.mem_range.mp hi
            omega
          rw [← hix, if_neg hne]
        rw [hhead, List.sum_replicate, nsmul_eq_mul]
        simp [hpk]
        ring
      · have hpk2 : p < k := by omega
        rw [ih p hpk2]
        have hk1 : (1 : Nat) ≤ k := by omega
        have hcast : ((k - 1 : Nat) : ℚ) = (k : ℚ) - 1 := by
          push_cast [Nat.cast_sub hk1]
          ring
        simp [hpk, hcast]
        ring

/-- C4, counterexample to the claim as stated: with 12 green phases, all
usage concentrated on phase 0 past warm-up (101 ticks) yields a fairness
score of 17/72 ≈ 0.236, which is not strictly less than 0.2. -/
theorem fairness_score_counterexample :
    fairnessScore 101 [(0, 101)] 12 = 17 / 72 ∧
    ¬ (fairnessScore 101 [(0, 101)] 12 < 1 / 5) := by decide

/-- C4 (amended: the concentrated-usage bound requires
`2 ≤ numGreenPhases ≤ 11`): before warm-up the fairness score is 1;
past warm-up, exactly uniform usage over `n` green phases scores exactly
1, and usage concentrated on a single phase scores strictly below 0.2
whenever `2 ≤ n ≤ 11`. -/
theorem fairness_score_bounds (step_count n c p m : Nat) (h : List (Nat × Nat)) :
    (step_count ≤ 100 → fairnessScore step_count h n = 1) ∧
    (100 < step_count → 0 < c → 0 < n →
      fairnessScore step_count ((List.range n).map (fun i => (i, c))) n = 1) ∧
    (100 < step_count → 0 < m → p < n → 2 ≤ n → n ≤ 11 →
      fairnessScore step_count [(p, m)] n < 1 / 5) := by
  refine ⟨fun hstep => ?_, fun hstep hc hn => ?_, fun hstep hm hp hn2 hn11 => ?_⟩
  · unfold fairnessScore
    rw [if_neg (by omega)]
  · have hne : ((n : ℚ)) ≠ 0 := Nat.cast_ne_zero.mpr (by omega)
    have hce : ((c : ℚ)) ≠ 0 := Nat.cast_ne_zero.mpr (by omega)
    have hz : (List.range n).map
        ((fun u => (u - 1 / (n : ℚ)) ^ 2) ∘
          (fun i => (dictGet ((List.range n).map (fun i => (i, c))) i : ℚ)
            / ((n * c : Nat) : ℚ)))
        = List.replicate n 0 := by
      rw [List.eq_replicate_iff]
      refine ⟨by simp, ?_⟩
      intro x hx
      rcases List.mem_map.mp hx with ⟨i, hi, hix⟩
      have hgc := dictGet_map_pair_const c (List.range n) hi
      have hdiv : ((dictGet ((List.range n).map (fun i => (i, c))) i : ℚ)
          / ((n * c : Nat) : ℚ)) = 1 / (n : ℚ) := by
        rw [hgc]
        push_cast
        field_simp
        ring
      rw [← hix]
      simp only [Function.comp_apply, hdiv]
      ring
    unfold fairnessScore
    rw [if_pos hstep]
    simp only [totalUsage_map_pair_const, List.map_map]
    rw [if_pos (Nat.mul_pos hn hc), hz, List.sum_replicate]
    simp
  · have hq : ((n : ℚ)) ≠ 0 := Nat.cast_ne_zero.mpr (by omega)
    have hmq : ((m : ℚ)) ≠ 0 := Nat.cast_ne_zero.mpr (by omega)
    have htot : totalUsage [(p, m)] = m := by simp [totalUsage]
    have hmap : (List.range n).map
        ((fun u => (u - 1 / (n : ℚ)) ^ 2) ∘
          (fun i => (dictGet [(p, m)] i : ℚ) / (m : ℚ)))
        = (List.range n).map
            (fun i => if p = i then (1 - 1 / (n : ℚ)) ^ 2 else (1 / (n : ℚ)) ^ 2) := by
      apply List.map_congr_left
      intro i _
      simp only [Function.comp_apply, dictGet_singleton]
      by_cases hpi : p = i
      · simp [hpi, hmq]
      · simp only [hpi, if_false, Nat.cast_zero, zero_div, if_neg hpi]
        ring
    unfold fairnessScore
    rw [if_pos hstep]
    simp only [htot, List.map_map]
    rw [if_pos hm, hmap, sum_map_range_ite _ _ n p hp]
    have hcast : ((n - 1 : Nat) : ℚ) = (n : ℚ) - 1 := by
      push_cast [Nat.cast_sub (by omega : (1 : Nat) ≤ n)]
      ring
    rw [hcast]
    have hvar : ((1 - 1 / (n : ℚ)) ^ 2 + ((n : ℚ) - 1) * (1 / (n : ℚ)) ^ 2) / (n : ℚ)
        = ((n : ℚ) - 1) / (n : ℚ) ^ 2 := by
      field_simp
      ring
    rw [hvar]
    have hkey : 2 / 25 < ((n : ℚ) - 1) / (n : ℚ) ^ 2 := by
      interval_cases n <;> norm_num
    rw [max_lt_iff]
    constructor
    · norm_num
    · nlinarith [hkey]

theorem fairness_score_bounds_witness :
    fairnessScore 50 [(0, 7)] 4 = 1 ∧
    fairnessScore 101 ((List.range 4).map (fun i => (i, 5))) 4 = 1 ∧
    fairnessScore 101 [(0, 7)] 4 < 1 / 5 :=
  ⟨(fairness_score_bounds 50 4 5 0 7 [(0, 7)]).1 (by norm_num),
   (fairness_score_bounds 101 4 5 0 7 []).2.1 (by norm_num) (by norm_num) (by norm_num),
   (fairness_score_bounds 101 4 5 0 7 []).2.2 (by norm_num) (by norm_num)
     (by norm_num) (by norm_num) (by norm_num)⟩

theorem needs_emergency_preserves (tls : TLS) (t : Int) :
    ((needs_emergency_switch tls t).2).phase_start_time = tls.phase_start_time ∧
    ((needs_emergency_switch tls t).2).min_green_time = tls.min_green_time ∧
    ((needs_emergency_switch tls t).2).current_phase = tls.current_phase ∧
    ((needs_emergency_switch tls t).2).emergency_cooldown = tls.emergency_cooldown ∧
    ((needs_emergency_switch tls t).2).time_since_last_switch = tls.time_since_last_switch := by
  unfold needs_emergency_switch
  split
  · exact ⟨rfl, rfl, rfl, rfl, rfl⟩
  · split
    · split
      · split
        · exact ⟨rfl, rfl, rfl, rfl, rfl⟩
        · exact ⟨rfl, rfl, rfl, rfl, rfl⟩
      · exact ⟨rfl, rfl, rfl, rfl, rfl⟩
    · exact ⟨rfl, rfl, rfl, rfl, rfl⟩

/-- C1: whenever `_execute_action` applies a non-emergency (RL) switch at
tick `t`, at least `min_green_time` has elapsed since the intersection's
phase clock was last restarted, i.e. `t - phase_start_time ≥ min_green_time`. -/
theorem min_green_gate (tls : TLS) (t : Int) (telem : Nat → RawLaneData)
    (action : Nat) (p : Nat)
    (h : (execute_action tls t telem action).2 = Decision.rlSwitch p) :
    tls.min_green_time ≤ t - tls.phase_start_time := by
  have hpres := needs_emergency_preserves tls t
  unfold execute_action at h
  split at h
  · split at h <;> simp at h
  · split at h
    next hcond =>
      have hcs : can_switch_phase (needs_emergency_switch tls t).2 t = true := hcond.2
      unfold can_switch_phase at hcs
      rw [hpres.1, hpres.2.1] at hcs
      exact of_decide_eq_true hcs
    next => simp at h

theorem min_green_gate_witness :
    (execute_action c1wTLS 30 (fun _ => rawZero) 1).2 = Decision.rlSwitch 1 ∧
    c1wTLS.min_green_time ≤ 30 - c1wTLS.phase_start_time :=
  ⟨by decide, min_green_gate c1wTLS 30 (fun _ => rawZero) 1 1 (by decide)⟩

theorem scanStarved_absorb (tls : TLS) (t : Int) (green : List Nat) :
    ∀ (lanes : List Nat) (m : Int) (sl : Option Nat),
      (∀ l ∈ lanes, l ∉ green → t - tls.lane_last_green l ≤ m) →
      scanStarved tls t green lanes (m, sl) = (m, sl) := by
  intro lanes
  induction lanes with
  | nil => intro m sl _; rfl
  | cons a rest ih =>
      intro m sl h
      unfold scanStarved
      by_cases hg : a ∈ green
      · rw [if_pos hg]
        exact ih m sl (fun l hl => h l (List.mem_cons_of_mem _ hl))
      · rw [if_neg hg]
        have hle := h a (List.mem_cons_self a rest) hg
        rw [if_neg (fun hc => absurd hc.2 (not_lt.mpr hle))]
        exact ih m sl (fun l hl => h l (List.mem_cons_of_mem _ hl))

theorem scanStarved_selects (tls : TLS) (t : Int) (green : List Nat) (lane0 : Nat)
    (hthresh : (tls.max_red_time : ℚ) * (8 / 10) < ((t - tls.lane_last_green lane0 : Int) : ℚ))
    (hg : lane0 ∉ green) :
    ∀ (lanes : List Nat) (m : Int) (sl : Option Nat),
      lane0 ∈ lanes →
      (∀ l ∈ lanes, l ≠ lane0 → l ∉ green →
        t - tls.lane_last_green l < t - tls.lane_last_green lane0) →
      m < t - tls.lane_last_green lane0 →
      scanStarved tls t green lanes (m, sl)
        = (t - tls.lane_last_green lane0, some lane0) := by
  intro lanes
  induction lanes with
  | nil => intro m sl hmem; cases hmem
  | cons a rest ih =>
      intro m sl hmem hdom hm
      unfold scanStarved
      by_cases hag : a ∈ green
      · rw [if_pos hag]
        have hal : lane0 ∈ rest := by
          rcases List.mem_cons.mp hmem with he | he
          · exact absurd (he ▸ hag) hg
          · exact he
        exact ih m sl hal
          (fun l hl => hdom l (List.mem_cons_of_mem _ hl)) hm
      · rw [if_neg hag]
        by_cases hae : a = lane0
        · subst hae
          rw [if_pos ⟨hthresh, hm⟩]
          apply scanStarved_absorb
          intro l hl hlg
          by_cases hla : l = a
          · exact le_of_eq (by rw [hla])
          · exact le_of_lt (hdom l (List.mem_cons_of_mem _ hl) hla hlg)
        · have hmem2 : lane0 ∈ rest := by
            rcases List.mem_cons.mp hmem with he | he
            · exact absurd he.symm hae
            · exact he
          have hlt := hdom a (List.mem_cons_self a rest) hae hag
          by_cases hcond : (tls.max_red_time : ℚ) * (8 / 10)
              < ((t - tls.lane_last_green a : Int) : ℚ) ∧ m < t - tls.lane_last_green a
          · rw [if_pos hcond]
            exact ih _ _ hmem2
              (fun l hl => hdom l (List.mem_cons_of_mem _ hl)) hlt
          · rw [if_neg hcond]
            exact ih m sl hmem2
              (fun l hl => hdom l (List.mem_cons_of_mem _ hl)) hm

/-- C2, counterexample to the claim as stated: in `c2cTLS` at tick 100,
lane 0 is red, starved beyond `0.8 * maxRedTime`, the cooldown has long
elapsed, and green phase 1 serves it — yet the decision is not an
emergency override at all, because the scan selects the more-starved
lane 1, which no phase serves. -/
theorem starvation_override_counterexample :
    0 ∈ c2cTLS.controlled_lanes ∧
    0 ∉ currentGreenLanes c2cTLS ∧
    (c2cTLS.max_red_time : ℚ) * (8 / 10) < ((100 - c2cTLS.lane_last_green 0 : Int) : ℚ) ∧
    c2cTLS.emergency_cooldown ≤ 100 - c2cTLS.last_emergency_switch ∧
    find_best_phase_for_lane c2cTLS 0 = some 1 ∧
    (needs_emergency_switch c2cTLS 100).1 = (false, none) := by decide

/-- C2 (amended: the override is guaranteed for the strictly
most-starved red lane, provided its first serving green phase differs
from the current phase): if the cooldown has elapsed, `lane0` is a
controlled lane not currently green whose starvation exceeds
`0.8 * maxRedTime` and strictly exceeds every other red lane's, and its
first serving green phase `p` is not the current phase, then the
decision is an emergency override to `p`, a phase serving `lane0`. -/
theorem starvation_override_amended (tls : TLS) (t : Int) (lane0 p : Nat)
    (hcool : tls.emergency_cooldown ≤ t - tls.last_emergency_switch)
    (hmr : 0 ≤ tls.max_red_time)
    (hmem : lane0 ∈ tls.controlled_lanes)
    (hg : lane0 ∉ currentGreenLanes tls)
    (hthresh : (tls.max_red_time : ℚ) * (8 / 10) < ((t - tls.lane_last_green lane0 : Int) : ℚ))
    (hdom : ∀ l ∈ tls.controlled_lanes, l ≠ lane0 → l ∉ currentGreenLanes tls →
      t - tls.lane_last_green l < t - tls.lane_last_green lane0)
    (hfind : find_best_phase_for_lane tls lane0 = some p)
    (hne : p ≠ tls.current_phase) :
    (needs_emergency_switch tls t).1 = (true, some p) ∧
    phaseServesLane tls p lane0 = true := by
  have h0 : (0 : Int) < t - tls.lane_last_green lane0 := by
    have hq : (0 : ℚ) ≤ (tls.max_red_time : ℚ) * (8 / 10) := by
      have : (0 : ℚ) ≤ (tls.max_red_time : ℚ) := by exact_mod_cast hmr
      nlinarith
    exact_mod_cast lt_of_le_of_lt hq hthresh
  constructor
  · unfold needs_emergency_switch
    rw [if_neg (not_lt.mpr hcool)]
    rw [scanStarved_selects tls t (currentGreenLanes tls) lane0 hthresh hg
        tls.controlled_lanes 0 none hmem hdom h0]
    simp only [hfind]
    rw [if_pos hne]
  · unfold find_best_phase_for_lane at hfind
    have hps := List.find?_some hfind
    simpa using hps

theorem starvation_override_amended_witness :
    (needs_emergency_switch c2wTLS 0).1 = (true, some 1) ∧
    phaseServesLane c2wTLS 1 0 = true :=
  starvation_override_amended c2wTLS 0 0 1 (by decide) (by decide) (by decide)
    (by decide) (by decide) (by decide) (by decide) (by decide)

theorem needs_emergency_cooldown_noop (tls : TLS) (u : Int)
    (h : u - tls.last_emergency_switch < tls.emergency_cooldown) :
    needs_emergency_switch tls u = ((false, none), tls) := by
  unfold needs_emergency_switch
  rw [if_pos h]

theorem needs_emergency_cases (tls : TLS) (t : Int) :
    needs_emergency_switch tls t = ((false, none), tls) ∨
    ((needs_emergency_switch tls t).1.1 = true ∧
     (needs_emergency_switch tls t).2 =
       { tls with last_emergency_switch := t
                  emergency_switches := tls.emergency_switches + 1 }) := by
  unfold needs_emergency_switch
  split
  · exact Or.inl rfl
  · split
    · split
      · split
        · exact Or.inr ⟨rfl, rfl⟩
        · exact Or.inl rfl
      · exact Or.inl rfl
    · exact Or.inl rfl

theorem needs_emergency_true_fields (tls : TLS) (t : Int)
    (h : (needs_emergency_switch tls t).1.1 = true) :
    ((needs_emergency_switch tls t).2).last_emergency_switch = t ∧
    ((needs_emergency_switch tls t).2).emergency_switches = tls.emergency_switches + 1 ∧
    ((needs_emergency_switch tls t).2).emergency_cooldown = tls.emergency_cooldown := by
  rcases needs_emergency_cases tls t with hcase | ⟨-, hstate⟩
  · rw [hcase] at h
    simp at h
  · rw [hstate]
    exact ⟨rfl, rfl, rfl⟩

theorem callChain_under_cooldown (cool lastt : Int) :
    ∀ (ts : List Int) (s : TLS),
      s.last_emergency_switch = lastt → s.emergency_cooldown = cool →
      (∀ u ∈ ts, u - lastt < cool) →
      callChain ts s = (List.replicate ts.length (false, none), s) := by
  intro ts
  induction ts with
  | nil => intro s _ _ _; rfl
  | cons u rest ih =>
      intro s hl hc hall
      have hu : u - s.last_emergency_switch < s.emergency_cooldown := by
        rw [hl, hc]
        exact hall u (List.mem_cons_self u rest)
      unfold callChain
      rw [needs_emergency_cooldown_noop s u hu]
      rw [ih s hl hc (fun v hv => hall v (List.mem_cons_of_mem _ hv))]
      simp [List.replicate]

/-- C9: a `needs_emergency_switch` call that answers `(True, phase)` at
time `t` has already recorded `last_emergency_switch = t` and bumped the
emergency counter (even if the caller then suppresses the switch), and
consequently every subsequent call at a time `u` with
`u - t < emergencyCooldown` answers `(False, None)` without touching the
state. -/
theorem emergency_query_side_effects (tls : TLS) (t : Int) (p : Option Nat)
    (h : (needs_emergency_switch tls t).1 = (true, p)) :
    ((needs_emergency_switch tls t).2).last_emergency_switch = t ∧
    ((needs_emergency_switch tls t).2).emergency_switches = tls.emergency_switches + 1 ∧
    ∀ ts : List Int, (∀ u ∈ ts, u - t < tls.emergency_cooldown) →
      (callChain ts (needs_emergency_switch tls t).2).1
        = List.replicate ts.length (false, none) ∧
      (callChain ts (needs_emergency_switch tls t).2).2
        = (needs_emergency_switch tls t).2 := by
  have htrue : (needs_emergency_switch tls t).1.1 = true := by rw [h]
  obtain ⟨hl, hcount, hcool⟩ := needs_emergency_true_fields tls t htrue
  refine ⟨hl, hcount, fun ts hts => ?_⟩
  have hchain := callChain_under_cooldown tls.emergency_cooldown t ts
    (needs_emergency_switch tls t).2 hl hcool hts
  rw [hchain]
  exact ⟨rfl, rfl⟩

theorem emergency_query_side_effects_witness :
    (needs_emergency_switch cexTLS 0).1 = (true, some 1) ∧
    ((needs_emergency_switch cexTLS 0).2).last_emergency_switch = 0 ∧
    (callChain [5, 19] (needs_emergency_switch cexTLS 0).2).1
      = [(false, none), (false, none)] := by
  refine ⟨by decide, (emergency_query_side_effects cexTLS 0 (some 1) (by decide)).1, ?_⟩
  have hc := ((emergency_query_side_effects cexTLS 0 (some 1) (by decide)).2.2
    [5, 19] (by decide)).1
  simpa using hc

/-- C7, counterexample to the claim as stated: the same reset-time
intersection driven by the same fixed-cycle controller, fed the all-else-
equal telemetry streams `telemA` (queue on lane 0) and `telemB` (queue on
lane 2), emits different Keep/Switch decision sequences within 11 ticks:
the telemetry steers which phase the tick-8 switch selects, which changes
a later emergency override and hence the switch timer the controller
reads. -/
theorem fixed_cycle_decisions_differ :
    fixedRun 29 telemA 11 cexEnv = [0, 0, 0, 0, 0, 0, 0, 0, 1, 0, 1] ∧
    fixedRun 29 telemB 11 cexEnv = [0, 0, 0, 0, 0, 0, 0, 0, 1, 0, 0] ∧
    fixedRun 29 telemA 11 cexEnv ≠ fixedRun 29 telemB 11 cexEnv := by decide

/-- C7 (amended: the per-tick decision itself reads only the switch
timer, but the emitted decision sequences need not coincide for all
telemetry pairs): the fixed-cycle decision is `Switch` exactly when
`time_since_last_switch ≥ cycleLength`, so any two manager states
agreeing on that timer receive the same decision. -/
theorem fixed_decision_reads_only_timer (cycle : Int) (s1 s2 : TLS)
    (h : s1.time_since_last_switch = s2.time_since_last_switch) :
    fixed_decision cycle s1 = fixed_decision cycle s2 ∧
    (fixed_decision cycle s1 = 1 ↔ cycle ≤ s1.time_since_last_switch) := by
  constructor
  · unfold fixed_decision
    rw [h]
  · unfold fixed_decision
    by_cases hc : cycle ≤ s1.time_since_last_switch <;> simp [hc]

theorem fixed_decision_reads_only_timer_witness :
    fixed_decision 29 cexTLS = fixed_decision 29 c7wTLS ∧
    (fixed_decision 29 cexTLS = 1 ↔ (29 : Int) ≤ cexTLS.time_since_last_switch) :=
  fixed_decision_reads_only_timer 29 cexTLS c7wTLS rfl

/-- C3: the encoded observation of the targeted environment evaluated
with one initialised intersection whose lane reports a mean speed of
100 m/s.  The vector has the configured length 607, but the mean-speed
feature (index 5) is `100/50 = 2`: the only unclamped feature escapes the
declared `[0,1]` bounds, refuting the range half of the claim while
confirming the length half. -/
theorem observation_speed_unclamped :
    c3obs.length = 607 ∧ c3obs.get? 5 = some 2 ∧ ∃ x ∈ c3obs, 1 < x := by decide

end AddisSUMO
